import Mathlib

/-!
Verification model of the flat-file employee record store in
`src/src/parse.c` (`machingclee/2026-02-13-C-Programming-CRUD-in-local-db`).

The program runs on a little-endian host (the repository's own guides target
x86), so `htons`/`htonl`/`ntohs`/`ntohl` are modelled as byte swaps.  Files
are modelled as lists of bytes (`List Nat`, each entry `< 256`); C strings
(the `name`/`address` arrays of `struct employee_t`) are modelled as the byte
content up to the terminator, a `List Nat` of length at most 255.

Out of scope, following §5 of the spec and the code's own structure:
allocation failure (`calloc`/`realloc` returning NULL is fatal), short or
failing `write` calls, and the unrepresentable NULL-pointer argument checks.
Reads past the end of an allocation (which `output_file` performs when the
byte-swapped count exceeds the list length) are modelled by an explicit
`heapGarbage` oracle, so every theorem quantifying over the oracle is robust
to whatever those reads return.
-/

set_option maxRecDepth 100000

/-! ### Byte-order primitives (little-endian host) -/

/-- 16-bit byte swap: `bswap16 (a + 256*b) = b + 256*a` for bytes `a`, `b`. -/
def bswap16 (x : Nat) : Nat := (x % 256) * 256 + (x / 256) % 256

/-- 32-bit byte swap. -/
def bswap32 (x : Nat) : Nat :=
  (x % 256) * 2 ^ 24 + (x / 2 ^ 8 % 256) * 2 ^ 16 + (x / 2 ^ 16 % 256) * 2 ^ 8
    + x / 2 ^ 24 % 256

/-- `htons` on a little-endian host: swap the two bytes of a `u16`. -/
def htons (x : Nat) : Nat := bswap16 (x % 65536)

/-- `htonl` on a little-endian host: swap the four bytes of a `u32`. -/
def htonl (x : Nat) : Nat := bswap32 (x % 4294967296)

/-- `ntohs` on a little-endian host (same swap as `htons`). -/
def ntohs (x : Nat) : Nat := bswap16 (x % 65536)

/-- `ntohl` on a little-endian host (same swap as `htonl`). -/
def ntohl (x : Nat) : Nat := bswap32 (x % 4294967296)

/-! ### Data model (`src/include/parse.h`) -/

/-- `#define HEADER_MAGIC 0x4c4c4144` (src/include/parse.h:5). -/
def HEADER_MAGIC : Nat := 0x4c4c4144

/-- `struct db_header_t` (src/include/parse.h:7-12): `magic : u32`,
`version : u16`, `count : u16`, `filesize : u32`, 12 bytes on disk. -/
structure db_header_t where
  magic : Nat
  version : Nat
  count : Nat
  filesize : Nat
deriving DecidableEq, Repr

/-- `struct employee_t` (src/include/parse.h:14-18): two 256-byte C-string
fields and a `u32`, 516 bytes on disk.  `name`/`address` hold the bytes up to
the terminator (at most 255 of them). -/
structure employee_t where
  name : List Nat
  address : List Nat
  hours : Nat
deriving DecidableEq, Repr

/-- The record a 516-byte block of zero bytes decodes to. -/
def zeroEmployee : employee_t := { name := [], address := [], hours := 0 }

/-- The in-memory well-formedness the C string fields always satisfy: the
content fits the 256-byte array with its terminator. -/
def validEmployee (e : employee_t) : Prop :=
  e.name.length ≤ 255 ∧ e.address.length ≤ 255

instance (e : employee_t) : Decidable (validEmployee e) := by
  unfold validEmployee; infer_instance

/-! ### Struct memory layout on the little-endian host

`write`/`read` move raw struct memory, so the file bytes are the
little-endian layout of whatever values the struct fields hold. -/

/-- Little-endian bytes of a `u16` field. -/
def u16le (x : Nat) : List Nat := [x % 256, x / 256 % 256]

/-- Little-endian bytes of a `u32` field. -/
def u32le (x : Nat) : List Nat :=
  [x % 256, x / 2 ^ 8 % 256, x / 2 ^ 16 % 256, x / 2 ^ 24 % 256]

/-- Byte `i` of a buffer; bytes past the end read as 0 (the buffers the code
reads into are zero-initialised by `calloc`). -/
def byteAt (bs : List Nat) (i : Nat) : Nat := bs.getD i 0

/-- A `u16` read back from buffer memory (little-endian host). -/
def leU16 (bs : List Nat) : Nat := byteAt bs 0 + 256 * byteAt bs 1

/-- A `u32` read back from buffer memory (little-endian host). -/
def leU32 (bs : List Nat) : Nat :=
  byteAt bs 0 + 2 ^ 8 * byteAt bs 1 + 2 ^ 16 * byteAt bs 2 + 2 ^ 24 * byteAt bs 3

/-- The 12 bytes of `struct db_header_t` as laid out in memory:
magic(4), version(2), count(2), filesize(4), each little-endian. -/
def headerBytesLE (h : db_header_t) : List Nat :=
  u32le h.magic ++ u16le h.version ++ u16le h.count ++ u32le h.filesize

/-- Reinterpret 12 bytes as a `struct db_header_t` (little-endian host). -/
def decodeHeaderLE (bs : List Nat) : db_header_t :=
  { magic := leU32 (bs.take 4)
    version := leU16 ((bs.drop 4).take 2)
    count := leU16 ((bs.drop 6).take 2)
    filesize := leU32 (bs.drop 8) }

/-- A 256-byte C-string array: content then zero padding.  (Byte 255 after a
full-length `strncpy` is strictly speaking uninitialised heap memory; every
record the engine builds keeps the content at 255 bytes or fewer, for which
the layout below is exact.) -/
def cstrBytes (s : List Nat) : List Nat :=
  s.take 255 ++ List.replicate (256 - (s.take 255).length) 0

/-- Read a C string back out of a 256-byte array: the bytes before the first
terminator. -/
def decodeCstr (bs : List Nat) : List Nat := (bs.take 256).takeWhile (fun b => b != 0)

/-- The 516 bytes of `struct employee_t` as laid out in memory. -/
def encodeEmployee (e : employee_t) : List Nat :=
  cstrBytes e.name ++ cstrBytes e.address ++ u32le e.hours

/-- Reinterpret 516 bytes of buffer memory as a `struct employee_t`. -/
def decodeEmployee (bs : List Nat) : employee_t :=
  { name := decodeCstr (bs.take 256)
    address := decodeCstr ((bs.drop 256).take 256)
    hours := leU32 (bs.drop 512) }

/-- Reinterpret a buffer as an array of `n` employee structs, 516 bytes
each. -/
def decodeEmployees : Nat → List Nat → List employee_t
  | 0, _ => []
  | n + 1, bs => decodeEmployee (bs.take 516) :: decodeEmployees n (bs.drop 516)

/-! ### C library string helpers used by `add_employee` -/

/-- One `strtok` pass with a single delimiter: the maximal nonempty runs of
non-delimiter bytes, in order (`acc` holds the current run, reversed). -/
def strtokAux (d : Nat) : List Nat → List Nat → List (List Nat)
  | [], acc => if acc.isEmpty then [] else [acc.reverse]
  | b :: bs, acc =>
    if b = d then
      if acc.isEmpty then strtokAux d bs [] else acc.reverse :: strtokAux d bs []
    else strtokAux d bs (b :: acc)

/-- All tokens `strtok(s, d)` / `strtok(NULL, d)` would produce. -/
def strtokAll (d : Nat) (s : List Nat) : List (List Nat) := strtokAux d s []

/-- Digit-run accumulator for `atoi`. -/
def atoiDigits : List Nat → Nat → Nat
  | [], acc => acc
  | b :: bs, acc => if 48 ≤ b ∧ b ≤ 57 then atoiDigits bs (acc * 10 + (b - 48)) else acc

/-- C `isspace` bytes. -/
def isSpaceByte (b : Nat) : Bool :=
  b == 32 || b == 9 || b == 10 || b == 11 || b == 12 || b == 13

/-- `atoi`: skip whitespace, optional sign, then the leading digit run. -/
def atoi (bs : List Nat) : Int :=
  match bs.dropWhile isSpaceByte with
  | 45 :: rest => -(atoiDigits rest 0 : Int)
  | 43 :: rest => (atoiDigits rest 0 : Int)
  | rest => (atoiDigits rest 0 : Int)

/-- Conversion of a C `int` to `unsigned int` (reduction modulo `2^32`). -/
def intToU32 (i : Int) : Nat := (i % 4294967296).toNat

/-! ### The engine operations (`src/src/parse.c`) -/

/-- `create_db_header` (src/src/parse.c:20-34): a fresh header for an empty
store (`calloc` assumed to succeed). -/
def create_db_header : db_header_t :=
  { magic := HEADER_MAGIC, version := 1, count := 0, filesize := 12 }

/-- The checks of `retrieve_and_validate_db_header`, each tagged the way the
code's error messages name them. -/
inductive header_check where
  | badVersion
  | badFilesize
  | badMagic
deriving DecidableEq, Repr

/-- How `retrieve_and_validate_db_header` can fail. -/
inductive retrieve_err where
  | badFd
  | shortRead
  | invalid (failed : List header_check)
deriving DecidableEq, Repr

instance : DecidableEq (Except retrieve_err Unit) := fun a b =>
  match a, b with
  | .ok (), .ok () => .isTrue rfl
  | .error e1, .error e2 =>
    if h : e1 = e2 then .isTrue (by rw [h]) else
      .isFalse (by intro hh; cases hh; exact h rfl)
  | .ok _, .error _ => .isFalse (by intro h; cases h)
  | .error _, .ok _ => .isFalse (by intro h; cases h)

/-- The header as it sits in memory after the `ntohs`/`ntohl` conversions of
src/src/parse.c:59-62, given the first 12 file bytes. -/
def hostHeader (file : List Nat) : db_header_t :=
  let raw := decodeHeaderLE (file.take 12)
  { magic := ntohl raw.magic, version := ntohs raw.version,
    count := ntohs raw.count, filesize := ntohl raw.filesize }

/-- The failing checks, in the order the code reports them
(src/src/parse.c:72-81: version, then filesize, then magic). -/
def failedChecks (header : db_header_t) (actualSize : Nat) : List header_check :=
  (if header.version ≠ 1 then [header_check.badVersion] else [])
    ++ (if header.filesize ≠ actualSize then [header_check.badFilesize] else [])
    ++ (if header.magic ≠ HEADER_MAGIC then [header_check.badMagic] else [])

/-- `retrieve_and_validate_db_header` (src/src/parse.c:36-88).  The result
pairs the returned status with the caller's header pointer: the code writes
`*headerOut` only at line 86, on the success path.  `read` returns
`min 12 file.length` bytes, so the `valid_bytes_read` check is
`12 ≤ file.length`. -/
def retrieve_and_validate_db_header (fd : Int) (file : List Nat)
    (headerOut : Option db_header_t) :
    Except retrieve_err Unit × Option db_header_t :=
  if fd < 0 then (.error .badFd, headerOut)
  else if file.length < 12 then (.error .shortRead, headerOut)
  else
    let header := hostHeader file
    if (failedChecks header file.length).isEmpty then (.ok (), some header)
    else (.error (.invalid (failedChecks header file.length)), headerOut)

/-- `read_employees` (src/src/parse.c:112-137): seek to offset 12, read
`count * 516` bytes into a zeroed buffer (the return value of `read` is not
checked, so a short file leaves the tail of the buffer zero), reinterpret as
`count` structs, then `ntohl` every `hours` field.  `none` models the
`STATUS_ERROR` return for a negative fd. -/
def read_employees (fd : Int) (file : List Nat) (header : db_header_t) :
    Option (List employee_t) :=
  if fd < 0 then none
  else
    let want := header.count * 516
    let avail := (file.drop 12).take want
    let buf := avail ++ List.replicate (want - avail.length) 0
    some ((decodeEmployees header.count buf).map fun e =>
      { e with hours := ntohl e.hours })

/-- The in-place effect of the save loop (src/src/parse.c:104-107) on the
employee list: entry `i` has its `hours` converted to network order when
`i < c`, where `c` is the (already byte-swapped) loop bound. -/
def mutateHours (c : Nat) : Nat → List employee_t → List employee_t
  | _, [] => []
  | i, e :: es =>
    (if i < c then { e with hours := htonl e.hours } else e) :: mutateHours c (i + 1) es

/-- The record the save loop writes at index `i`: the employee at `i` with
its `hours` byte-swapped, or — when `i` is outside the allocation — whatever
the out-of-bounds read returns (`heapGarbage i`). -/
def writtenRecord (heapGarbage : Nat → employee_t) (employees : List employee_t)
    (i : Nat) : employee_t :=
  let e := match employees.get? i with
    | some e => e
    | none => heapGarbage i
  { e with hours := htonl e.hours }

/-- `output_file` (src/src/parse.c:90-110): truncate the file, convert the
header fields to network order IN PLACE (the count is swapped at line 99,
BEFORE it is used in the filesize formula at line 100 and as the loop bound
at line 104), write the 12 header bytes, then write `htons(count)` records,
byte-swapping each one's `hours` in place first.  Returns the new file
content, the mutated header, the mutated employee list, and the byte count
the code reports.  `none` models the `ftruncate` failure path for a bad fd;
short writes are out of scope. -/
def output_file (heapGarbage : Nat → employee_t) (fd : Int) (header : db_header_t)
    (employees : List employee_t) :
    Option (List Nat × db_header_t × List employee_t × Nat) :=
  if fd < 0 then none
  else
    let c := htons header.count
    let header2 : db_header_t :=
      { magic := htonl header.magic, version := htons header.version,
        count := c, filesize := htonl (12 + 516 * c) }
    let file := headerBytesLE header2
      ++ ((List.range c).map fun i =>
            encodeEmployee (writtenRecord heapGarbage employees i)).flatten
    some (file, header2, mutateHours c 0 employees, 12 + 516 * c)

/-- Result of `add_employee` (src/src/parse.c:139-167).  `error` is the
`STATUS_ERROR` return for a missing name token; `nullDeref` marks the inputs
on which the code passes a NULL `addr` to `strncpy` or a NULL `hours` to
`atoi`; `oobWrite` marks the count-65535 store, where `header->count++`
wraps the `u16` to 0 at line 158 BEFORE `int lastindex = header->count - 1`
is computed at line 159, so `lastindex` is `-1` and the record is written
out of bounds at `e[-1]`, before the array.  Both `nullDeref` and `oobWrite`
are undefined behavior with no defined store result. -/
inductive add_result where
  | error
  | nullDeref
  | oobWrite
  | ok (header : db_header_t) (employees : List employee_t)
deriving DecidableEq, Repr

/-- `add_employee` (src/src/parse.c:139-167): split the add-string on commas
with `strtok`; fail if there is no name token; grow the buffer by one slot
(`realloc` assumed to succeed, line 154), increment the `u16` count
(line 158), and store the new record at `lastindex = header->count - 1`
(line 159) — `strncpy(.., .., 255)` silently truncates each text field to
255 bytes.  Because the increment precedes the index computation, a count of
65535 wraps to 0 and the store lands out of bounds at `e[-1]` (`oobWrite`);
otherwise `lastindex` is the old count, the end of the grown buffer.  The
NULL-pointer argument check at line 140 is not representable here. -/
def add_employee (header : db_header_t) (employees : List employee_t)
    (addstring : List Nat) : add_result :=
  match strtokAll 44 addstring with
  | [] => .error
  | [_] => .nullDeref
  | [_, _] => .nullDeref
  | name :: addr :: hours :: _ =>
    if (header.count + 1) % 65536 = 0 then .oobWrite
    else
      .ok { header with count := (header.count + 1) % 65536 }
        (employees ++ [{ name := name.take 255, address := addr.take 255,
                         hours := intToU32 (atoi hours) }])

/-- Outcome of a call to the non-void C function `delete_employee`:
`unspecified` marks the paths on which control reaches the closing brace
without a `return` statement, so the `int` the caller receives is undefined.
(`success` and `error` would be `STATUS_SUCCESS`/`STATUS_ERROR`; no
representable input reaches the `error` returns at lines 176 and 181.) -/
inductive cstatus where
  | success
  | error
  | unspecified
deriving DecidableEq, Repr

/-- The scan loop of `delete_employee` (src/src/parse.c:173-188): first index
whose `name` compares equal with `strcmp`. -/
def findFirstMatch (name : List Nat) : List employee_t → Option Nat
  | [] => none
  | e :: es =>
    if e.name = name then some 0 else (findFirstMatch name es).map (· + 1)

/-- `delete_employee` (src/src/parse.c:169-214): scan the first `count`
entries for the name; on a match, rebuild the list into a fresh zeroed
allocation, copying every scanned entry except the matched one with
`strncpy(.., .., 255)`, and decrement the count.  On both completed paths
control falls off the end of the function, so the returned status is
`unspecified`. -/
def delete_employee (header : db_header_t) (employees : List employee_t)
    (name : List Nat) : cstatus × db_header_t × List employee_t :=
  let scanned := employees.take header.count
  match findFirstMatch name scanned with
  | none => (.unspecified, header, employees)
  | some j =>
    let remaining := (scanned.eraseIdx j).map fun e =>
      { name := e.name.take 255, address := e.address.take 255, hours := e.hours }
    (.unspecified, { header with count := header.count - 1 }, remaining)

/-! ### Helper lemmas -/

theorem byteAt_replicate_zero (m i : Nat) : byteAt (List.replicate m 0) i = 0 := by
  induction m generalizing i with
  | zero => simp [byteAt]
  | succ n ih =>
    cases i with
    | zero => simp [byteAt, List.replicate]
    | succ j =>
      simp only [List.replicate]
      exact ih j

theorem leU32_replicate_zero (m : Nat) : leU32 (List.replicate m 0) = 0 := by
  simp [leU32, byteAt_replicate_zero]

theorem decodeCstr_replicate_zero (m : Nat) :
    decodeCstr (List.replicate m 0) = [] := by
  unfold decodeCstr
  rw [List.take_replicate]
  cases h : min 256 m with
  | zero => simp
  | succ k => simp [List.replicate, List.takeWhile]

theorem decodeEmployee_replicate_zero (m : Nat) :
    decodeEmployee (List.replicate m 0) = zeroEmployee := by
  simp [decodeEmployee, zeroEmployee, List.take_replicate, List.drop_replicate,
    decodeCstr_replicate_zero, leU32_replicate_zero]

theorem decodeEmployees_replicate_zero (n : Nat) :
    ∀ m, decodeEmployees n (List.replicate m 0) = List.replicate n zeroEmployee := by
  induction n with
  | zero => intro m; rfl
  | succ k ih =>
    intro m
    show decodeEmployee ((List.replicate m 0).take 516)
        :: decodeEmployees k ((List.replicate m 0).drop 516) = _
    rw [List.take_replicate, List.drop_replicate, decodeEmployee_replicate_zero,
      ih (m - 516)]
    rfl

theorem length_decodeEmployees (n : Nat) (bs : List Nat) :
    (decodeEmployees n bs).length = n := by
  induction n generalizing bs with
  | zero => rfl
  | succ k ih => simpa [decodeEmployees] using ih (bs.drop 516)

theorem decodeEmployees_append (k m : Nat) :
    ∀ b rest : List Nat, b.length = k * 516 →
      decodeEmployees (k + m) (b ++ rest)
        = decodeEmployees k b ++ decodeEmployees m rest := by
  induction k with
  | zero =>
    intro b rest hb
    have : b = [] := List.length_eq_zero.mp (by simpa using hb)
    simp [this, decodeEmployees]
  | succ j ih =>
    intro b rest hb
    have h516 : 516 ≤ b.length := by omega
    have htake : (b ++ rest).take 516 = b.take 516 :=
      List.take_append_of_le_length h516
    have hdrop : (b ++ rest).drop 516 = b.drop 516 ++ rest :=
      List.drop_append_of_le_length h516
    have hlen : (b.drop 516).length = j * 516 := by
      simp [List.length_drop, hb]; omega
    rw [show j + 1 + m = (j + m) + 1 from by omega]
    show decodeEmployee ((b ++ rest).take 516)
        :: decodeEmployees (j + m) ((b ++ rest).drop 516) = _
    rw [htake, hdrop, ih (b.drop 516) rest hlen]
    rfl

/-- `read_employees` on a file whose record area holds exactly `k` full
records with `k` at most `count`: it succeeds, and everything past the bytes
actually present comes back as zero-filled records. -/
theorem read_employees_of_short (fd : Int) (header : db_header_t) (file : List Nat)
    (k : Nat) (hfd : 0 ≤ fd) (hlen : (file.drop 12).length = k * 516)
    (hk : k ≤ header.count) :
    read_employees fd file header
      = some (((decodeEmployees k (file.drop 12)).map fun e =>
            { e with hours := ntohl e.hours })
          ++ List.replicate (header.count - k) zeroEmployee) := by
  unfold read_employees
  rw [if_neg (by omega)]
  have havail : (file.drop 12).take (header.count * 516) = file.drop 12 := by
    apply List.take_of_length_le
    rw [hlen]
    exact Nat.mul_le_mul_right 516 hk
  have hsplit : decodeEmployees header.count
      (file.drop 12 ++ List.replicate (header.count * 516 - (file.drop 12).length) 0)
      = decodeEmployees k (file.drop 12)
        ++ List.replicate (header.count - k) zeroEmployee := by
    have hck : k + (header.count - k) = header.count := by omega
    have h2 := decodeEmployees_append k (header.count - k) (file.drop 12)
      (List.replicate (header.count * 516 - (file.drop 12).length) 0) hlen
    rw [hck] at h2
    rw [h2, decodeEmployees_replicate_zero]
  simp only [havail, hsplit, List.map_append, List.map_replicate]
  have hz : ({ zeroEmployee with hours := ntohl zeroEmployee.hours } : employee_t)
      = zeroEmployee := by
    simp [zeroEmployee, ntohl, bswap32]
  rw [hz]

/-- `htons` of a count that fits one byte shifts it into the high byte. -/
theorem htons_of_le255 (x : Nat) (hx : x ≤ 255) : htons x = 256 * x := by
  unfold htons bswap16
  have h1 : x % 65536 = x := Nat.mod_eq_of_lt (by omega)
  rw [h1, Nat.mod_eq_of_lt (by omega), Nat.div_eq_of_lt (by omega)]
  omega

/-- When the loop bound covers the whole list, the save loop byte-swaps every
record's `hours` in place. -/
theorem mutateHours_eq_map (c : Nat) :
    ∀ (start : Nat) (es : List employee_t), start + es.length ≤ c →
      mutateHours c start es = es.map fun e => { e with hours := htonl e.hours } := by
  intro start es
  induction es generalizing start with
  | nil => intro _; rfl
  | cons e es ih =>
    intro hle
    simp only [List.length_cons] at hle
    show (if start < c then { e with hours := htonl e.hours } else e)
        :: mutateHours c (start + 1) es = _
    rw [if_pos (by omega), ih (start + 1) (by omega)]
    rfl

/-- Copying a record with `strncpy(.., .., 255)` is the identity on records
whose text content fits the array (the store invariant). -/
theorem copy_eq_self (l : List employee_t) (hval : ∀ e ∈ l, validEmployee e) :
    (l.map fun e =>
        ({ name := e.name.take 255, address := e.address.take 255,
           hours := e.hours } : employee_t)) = l := by
  induction l with
  | nil => rfl
  | cons e es ih =>
    have he := hval e (by simp)
    obtain ⟨hn, ha⟩ := he
    simp only [List.map_cons]
    rw [List.take_of_length_le hn, List.take_of_length_le ha,
      ih (fun x hx => hval x (by simp [hx]))]

/-- A list containing no record with the given name makes the scan loop of
`delete_employee` run off the end. -/
theorem findFirstMatch_eq_none (name : List Nat) (l : List employee_t)
    (h : ∀ e ∈ l, e.name ≠ name) : findFirstMatch name l = none := by
  induction l with
  | nil => rfl
  | cons e es ih =>
    unfold findFirstMatch
    rw [if_neg (h e (by simp)), ih (fun x hx => h x (by simp [hx]))]
    rfl

theorem findFirstMatch_some_lt (name : List Nat) (l : List employee_t) (j : Nat)
    (h : findFirstMatch name l = some j) : j < l.length := by
  induction l generalizing j with
  | nil => exact absurd h (by simp [findFirstMatch])
  | cons e es ih =>
    unfold findFirstMatch at h
    by_cases he : e.name = name
    · rw [if_pos he] at h
      cases h
      simp
    · rw [if_neg he] at h
      cases hes : findFirstMatch name es with
      | none => rw [hes] at h; cases h
      | some i =>
        rw [hes] at h
        cases h
        have := ih i hes
        simp
        omega

/-! ### Concrete stores and inputs used by the claim theorems -/

/-- A small record: name `"a"`, address `"b"`, 1 hour. -/
def empA : employee_t := { name := [97], address := [98], hours := 1 }

/-- A header carrying arbitrary but distinctive field values. -/
def hdrA : db_header_t := { magic := 7, version := 9, count := 1, filesize := 100 }

/-- The record named `"A"`. -/
def empNameA : employee_t := { name := [65], address := [120], hours := 2 }

/-- Claim C4: on a store containing no record with the requested name,
`delete_employee` leaves the record list and every header field exactly as
they were — but it reports no `NotFound` error: control falls off the end of
the non-void function, so the status the caller receives is unspecified. -/
theorem claim4_delete_missing_name_unchanged_no_status (hdr : db_header_t)
    (emps : List employee_t) (name : List Nat)
    (hnone : ∀ e ∈ emps, e.name ≠ name) :
    delete_employee hdr emps name = (.unspecified, hdr, emps) := by
  simp only [delete_employee]
  rw [findFirstMatch_eq_none name (emps.take hdr.count)
    (fun e he => hnone e (List.take_subset _ _ he))]

/-- Witness for C4: deleting `"B"` from the store holding only `"A"`. -/
theorem claim4_witness :
    delete_employee hdrA [empNameA] [66] = (.unspecified, hdrA, [empNameA]) :=
  claim4_delete_missing_name_unchanged_no_status hdrA [empNameA] [66] (by decide)

/-- Claim C7: when the scan finds a first (leftmost) record with the given
name at index `j`, `delete_employee` rebuilds the list as `eraseIdx j` —
every other record kept, in order, with its field values intact — and
decrements the `u16` count by exactly 1 (the count is at least 1 here). -/
theorem claim7_delete_removes_first_match (hdr : db_header_t)
    (emps : List employee_t) (name : List Nat) (j : Nat)
    (hcnt : hdr.count = emps.length)
    (hval : ∀ e ∈ emps, validEmployee e)
    (hfind : findFirstMatch name emps = some j) :
    delete_employee hdr emps name
      = (.unspecified, { hdr with count := hdr.count - 1 }, emps.eraseIdx j)
    ∧ 1 ≤ hdr.count := by
  have hj := findFirstMatch_some_lt name emps j hfind
  constructor
  · simp only [delete_employee]
    rw [hcnt, List.take_length, hfind]
    have hsub : ∀ e ∈ emps.eraseIdx j, validEmployee e := by
      intro e he
      exact hval e ((emps.eraseIdx_sublist j).subset he)
    show (cstatus.unspecified,
        { hdr with count := emps.length - 1 },
        (emps.eraseIdx j).map fun e =>
          ({ name := e.name.take 255, address := e.address.take 255,
             hours := e.hours } : employee_t)) = _
    rw [copy_eq_self (emps.eraseIdx j) hsub]
  · omega

/-- Witness for C7: deleting `"B"` from `[A, B, C]` yields `[A, C]` with the
count going from 3 to 2. -/
theorem claim7_witness :
    delete_employee { magic := HEADER_MAGIC, version := 1, count := 3, filesize := 1560 }
        [empNameA, { name := [66], address := [121], hours := 3 },
          { name := [67], address := [122], hours := 4 }] [66]
      = (.unspecified,
          { magic := HEADER_MAGIC, version := 1, count := 2, filesize := 1560 },
          [empNameA, { name := [67], address := [122], hours := 4 }])
    ∧ 1 ≤ (3 : Nat) :=
  claim7_delete_removes_first_match
    { magic := HEADER_MAGIC, version := 1, count := 3, filesize := 1560 }
    [empNameA, { name := [66], address := [121], hours := 3 },
      { name := [67], address := [122], hours := 4 }] [66] 1
    (by decide) (by decide) (by decide)

/-- Claim C9 amended: `delete_employee` leaves `magic`, `version` and
`filesize` exactly as they were on every input, and so does every
`add_employee` call that completes its append in bounds (returns success).
The one exception, forcing the amendment, is the count-65535 store, where
the append writes the record out of bounds at `e[-1]` — outside both
`header.count` and the record list — see the counterexample. -/
theorem claim9_mutations_preserve_header_frame (hdr h2 : db_header_t)
    (emps l2 : List employee_t) (s name : List Nat)
    (hadd : add_employee hdr emps s = .ok h2 l2) :
    (h2.magic = hdr.magic ∧ h2.version = hdr.version ∧ h2.filesize = hdr.filesize)
    ∧ ((delete_employee hdr emps name).2.1.magic = hdr.magic
        ∧ (delete_employee hdr emps name).2.1.version = hdr.version
        ∧ (delete_employee hdr emps name).2.1.filesize = hdr.filesize) := by
  constructor
  · unfold add_employee at hadd
    split at hadd
    · cases hadd
    · cases hadd
    · cases hadd
    · split at hadd
      · cases hadd
      · cases hadd
        exact ⟨rfl, rfl, rfl⟩
  · refine ⟨?_, ?_, ?_⟩ <;> (simp only [delete_employee]; split <;> rfl)

/-- Witness for C9 at a concrete store: appending `"a,b,1"` to the store
`(hdrA, [empNameA])` and deleting from it. -/
theorem claim9_witness :
    (({ hdrA with count := 2 } : db_header_t).magic = hdrA.magic
      ∧ ({ hdrA with count := 2 } : db_header_t).version = hdrA.version
      ∧ ({ hdrA with count := 2 } : db_header_t).filesize = hdrA.filesize)
    ∧ ((delete_employee hdrA [empNameA] [65]).2.1.magic = hdrA.magic
        ∧ (delete_employee hdrA [empNameA] [65]).2.1.version = hdrA.version
        ∧ (delete_employee hdrA [empNameA] [65]).2.1.filesize = hdrA.filesize) :=
  claim9_mutations_preserve_header_frame hdrA { hdrA with count := 2 }
    [empNameA]
    [empNameA, { name := [97], address := [98], hours := 1 }]
    [97, 44, 98, 44, 49] [65] (by decide)

/-- Claim C10: whenever `retrieve_and_validate_db_header` returns an error —
bad fd, short read, or any failed validation — it has not written through
`headerOut`: the caller's pointer is exactly what it was before the call. -/
theorem claim10_failure_leaves_headerOut_untouched (fd : Int) (file : List Nat)
    (p : Option db_header_t) (e : retrieve_err)
    (herr : (retrieve_and_validate_db_header fd file p).1 = .error e) :
    (retrieve_and_validate_db_header fd file p).2 = p := by
  unfold retrieve_and_validate_db_header at herr ⊢
  by_cases h1 : fd < 0
  · simp [h1]
  · by_cases h2 : file.length < 12
    · simp [h1, h2]
    · by_cases h3 : (failedChecks (hostHeader file) file.length).isEmpty
      · exfalso
        simp [h1, h2, h3] at herr
      · simp [h1, h2, h3]

/-- Witness for C10: validating an empty file fails with a short read and
leaves the caller's pointer (`some hdrA`) as it was. -/
theorem claim10_witness :
    (retrieve_and_validate_db_header 3 [] (some hdrA)).2 = some hdrA :=
  claim10_failure_leaves_headerOut_untouched 3 [] (some hdrA) .shortRead (by rfl)

/-- The 305-byte add-string whose name field is 300 `'a'` characters
(`"aaa…a,b,30"`). -/
def oversizedAddstring : List Nat := List.replicate 300 97 ++ [44, 98, 44, 51, 48]

/-- Counterexample to C2 as stated: appending a 300-character name does NOT
fail — `add_employee` returns success, the count rises from 0 to 1, and the
stored name is the silent 255-byte truncation of the input, not the input. -/
theorem claim2_counterexample_oversized_name_stored_truncated :
    add_employee create_db_header [] oversizedAddstring
      = .ok { magic := HEADER_MAGIC, version := 1, count := 1, filesize := 12 }
          [{ name := List.replicate 255 97, address := [98], hours := 30 }]
    ∧ List.replicate 255 97 ≠ List.replicate 300 97 := by
  constructor
  · decide
  · decide

/-- Claim C2 amended: `add_employee` has no `FieldTooLong` check.  On an
input whose name or address field exceeds 255 bytes — for a store whose
count is below 65535, so the append itself lands in bounds — it succeeds
anyway: the count is incremented by 1 and the record appended with each
oversized text field silently clipped by `strncpy` to its first 255 bytes,
a proper prefix of the input. -/
theorem claim2_amended_oversized_input_truncated_and_stored (hdr : db_header_t)
    (emps : List employee_t) (n a h s : List Nat)
    (htok : strtokAll 44 s = [n, a, h])
    (_hover : 255 < n.length ∨ 255 < a.length) (hc : hdr.count < 65535) :
    add_employee hdr emps s
      = .ok { hdr with count := hdr.count + 1 }
          (emps ++ [{ name := n.take 255, address := a.take 255,
                      hours := intToU32 (atoi h) }])
    ∧ (255 < n.length → (n.take 255).length = 255 ∧ n.take 255 ≠ n)
    ∧ (255 < a.length → (a.take 255).length = 255 ∧ a.take 255 ≠ a) := by
  refine ⟨?_, ?_, ?_⟩
  · unfold add_employee
    rw [htok]
    show (if (hdr.count + 1) % 65536 = 0 then add_result.oobWrite
        else .ok { hdr with count := (hdr.count + 1) % 65536 }
          (emps ++ [{ name := n.take 255, address := a.take 255,
                      hours := intToU32 (atoi h) }])) = _
    rw [if_neg (show ¬ (hdr.count + 1) % 65536 = 0 by omega),
      Nat.mod_eq_of_lt (by omega)]
  · intro hn
    refine ⟨by simp [List.length_take]; omega, ?_⟩
    intro heq
    have := congrArg List.length heq
    simp [List.length_take] at this
    omega
  · intro ha
    refine ⟨by simp [List.length_take]; omega, ?_⟩
    intro heq
    have := congrArg List.length heq
    simp [List.length_take] at this
    omega

/-- Witness for the amended C2 at the concrete 300-character-name input. -/
theorem claim2_amended_witness :
    add_employee create_db_header [] oversizedAddstring
      = .ok { create_db_header with count := create_db_header.count + 1 }
          ([] ++ [{ name := (List.replicate 300 97).take 255,
                    address := ([98] : List Nat).take 255,
                    hours := intToU32 (atoi [51, 48]) }])
    ∧ (255 < (List.replicate 300 97 : List Nat).length →
        ((List.replicate 300 97 : List Nat).take 255).length = 255
        ∧ (List.replicate 300 97 : List Nat).take 255 ≠ List.replicate 300 97)
    ∧ (255 < ([98] : List Nat).length →
        (([98] : List Nat).take 255).length = 255
        ∧ ([98] : List Nat).take 255 ≠ [98]) :=
  claim2_amended_oversized_input_truncated_and_stored create_db_header []
    (List.replicate 300 97) [98] [51, 48] oversizedAddstring (by decide)
    (Or.inl (by decide)) (by decide)

/-- Claim C6 amended: on a well-formed three-field input whose text fields
fit the 255-byte capacity, `add_employee` succeeds, appends the new record
at the end of the list (everything before it untouched), and increments the
`u16` count by exactly 1 — provided the count is below 65535 (at 65535 the
incremented `u16` count wraps to 0 and the record is written out of bounds
at index `-1`, see the counterexample). -/
theorem claim6_amended_add_appends_at_end (hdr : db_header_t)
    (emps : List employee_t) (n a h s : List Nat)
    (htok : strtokAll 44 s = [n, a, h])
    (hn : n.length ≤ 255) (ha : a.length ≤ 255) (hc : hdr.count < 65535) :
    add_employee hdr emps s
      = .ok { hdr with count := hdr.count + 1 }
          (emps ++ [{ name := n, address := a, hours := intToU32 (atoi h) }]) := by
  unfold add_employee
  rw [htok]
  show (if (hdr.count + 1) % 65536 = 0 then add_result.oobWrite
      else .ok { hdr with count := (hdr.count + 1) % 65536 }
        (emps ++ [{ name := n.take 255, address := a.take 255,
                    hours := intToU32 (atoi h) }])) = _
  rw [if_neg (show ¬ (hdr.count + 1) % 65536 = 0 by omega),
    List.take_of_length_le hn, List.take_of_length_le ha,
    Nat.mod_eq_of_lt (by omega)]

/-- Witness for the amended C6: appending `"J,H,30"` to a fresh store. -/
theorem claim6_amended_witness :
    add_employee create_db_header [] [74, 44, 72, 44, 51, 48]
      = .ok { create_db_header with count := create_db_header.count + 1 }
          ([] ++ [{ name := [74], address := [72], hours := intToU32 (atoi [51, 48]) }]) :=
  claim6_amended_add_appends_at_end create_db_header [] [74] [72] [51, 48]
    [74, 44, 72, 44, 51, 48] (by decide) (by decide) (by decide) (by decide)

/-- A store filled to the maximum `u16` count. -/
def hdrFull : db_header_t :=
  { magic := HEADER_MAGIC, version := 1, count := 65535, filesize := 12 + 516 * 65535 }

/-- Counterexample to C6 as stated: on the store whose count is 65535 there
is no append that increments the count by 1 and places the record at the end
— `header->count++` wraps the `u16` to 0 before `lastindex` is computed, so
`lastindex` is `-1` and the record is written out of bounds at `e[-1]`
(undefined behavior, no defined store result). -/
theorem claim6_counterexample_append_oob_at_full_count :
    add_employee hdrFull (List.replicate 65535 empA) [97, 44, 98, 44, 49]
      = .oobWrite := by
  rfl

/-- Counterexample to C9 as stated: at the full store, `add_employee` does
not modify only `header.count` and the record list — the new record's 516
bytes land out of bounds at `e[-1]`, memory belonging to neither the count
nor the list (plausibly the separately allocated header), and no defined
post-state exists. -/
theorem claim9_counterexample_add_writes_outside_store :
    add_employee hdrFull (List.replicate 65535 empNameA) [120, 44, 121, 44, 50]
      = .oobWrite := by
  rfl

/-- Claim C3: with a readable 12-byte header, `retrieve_and_validate_db_header`
reports every failing check.  When magic and version are valid but the
declared `filesize` differs from the actual file length, the error is
exactly the size-mismatch report; in general the reported list contains a
check if and only if that check failed, and whenever any check fails the
returned error carries the full list unchanged, with `headerOut` untouched. -/
theorem claim3_validation_reports_all_failing_checks (fd : Int) (file : List Nat)
    (p : Option db_header_t) (hfd : 0 ≤ fd) (hlen : 12 ≤ file.length) :
    ((hostHeader file).magic = HEADER_MAGIC → (hostHeader file).version = 1 →
      (hostHeader file).filesize ≠ file.length →
      retrieve_and_validate_db_header fd file p
        = (.error (.invalid [header_check.badFilesize]), p))
    ∧ (∀ c : header_check,
        c ∈ failedChecks (hostHeader file) file.length
          ↔ ((c = .badVersion ∧ (hostHeader file).version ≠ 1)
            ∨ (c = .badFilesize ∧ (hostHeader file).filesize ≠ file.length)
            ∨ (c = .badMagic ∧ (hostHeader file).magic ≠ HEADER_MAGIC)))
    ∧ (failedChecks (hostHeader file) file.length ≠ [] →
        retrieve_and_validate_db_header fd file p
          = (.error (.invalid (failedChecks (hostHeader file) file.length)), p)) := by
  have hnotfd : ¬ fd < 0 := by omega
  have hnotlen : ¬ file.length < 12 := by omega
  refine ⟨?_, ?_, ?_⟩
  · intro hm hv hf
    have hfc : failedChecks (hostHeader file) file.length
        = [header_check.badFilesize] := by
      unfold failedChecks
      rw [if_neg (by simp [hv]), if_pos hf, if_neg (by simp [hm])]
      rfl
    unfold retrieve_and_validate_db_header
    rw [if_neg hnotfd, if_neg hnotlen]
    simp only [hfc]
    rfl
  · intro c
    unfold failedChecks
    by_cases hv : (hostHeader file).version ≠ 1 <;>
      by_cases hf : (hostHeader file).filesize ≠ file.length <;>
        by_cases hm : (hostHeader file).magic ≠ HEADER_MAGIC <;>
          simp [hv, hf, hm]
  · intro hne
    unfold retrieve_and_validate_db_header
    rw [if_neg hnotfd, if_neg hnotlen]
    simp only [List.isEmpty_eq_true]
    rw [if_neg hne]

/-- The 12 bytes of a header whose on-disk (network-order) fields are valid
magic, version 1, count 0, but declared size 13. -/
def badSizeHeaderBytes : List Nat :=
  headerBytesLE { magic := htonl HEADER_MAGIC, version := htons 1,
                  count := htons 0, filesize := htonl 13 }

/-- Witness for C3: a 12-byte file with valid magic and version whose
declared size 13 differs from the actual length 12 fails with exactly the
size-mismatch report. -/
theorem claim3_witness :
    retrieve_and_validate_db_header 3 badSizeHeaderBytes none
      = (.error (.invalid [header_check.badFilesize]), none) :=
  (claim3_validation_reports_all_failing_checks 3 badSizeHeaderBytes none
    (by decide) (by decide)).1 (by decide) (by decide) (by decide)

set_option maxHeartbeats 2000000

/-- Claim C5 amended: `read_employees` never checks how many bytes `read`
returned.  On a file holding only `k` of the `count` promised records it
still succeeds, returning a list of exactly `count` records whose missing
suffix is decoded from the zero bytes `calloc` left in the buffer. -/
theorem claim5_amended_truncated_read_zero_fills (fd : Int) (hdr : db_header_t)
    (file : List Nat) (k : Nat)
    (hfd : 0 ≤ fd) (hlen : (file.drop 12).length = k * 516) (hk : k < hdr.count) :
    read_employees fd file hdr
      = some (((decodeEmployees k (file.drop 12)).map fun e =>
            { e with hours := ntohl e.hours })
          ++ List.replicate (hdr.count - k) zeroEmployee)
    ∧ ∀ l, read_employees fd file hdr = some l → l.length = hdr.count := by
  have h := read_employees_of_short fd hdr file k hfd hlen (by omega)
  refine ⟨h, ?_⟩
  intro l hl
  rw [h] at hl
  injection hl with hl
  rw [← hl]
  simp [length_decodeEmployees]
  omega

/-- A header declaring two records. -/
def hdrK : db_header_t :=
  { magic := HEADER_MAGIC, version := 1, count := 2, filesize := 1044 }

/-- A file truncated mid-record-list: a header promising 2 records followed
by only one record's bytes. -/
def fileK : List Nat :=
  headerBytesLE { magic := htonl HEADER_MAGIC, version := htons 1,
                  count := htons 2, filesize := htonl 1044 }
    ++ encodeEmployee empNameA

/-- Witness for the amended C5: reading the truncated `fileK` succeeds with
the one present record followed by a zero-filled record. -/
theorem claim5_amended_witness :
    read_employees 3 fileK hdrK
      = some (((decodeEmployees 1 (fileK.drop 12)).map fun e =>
            { e with hours := ntohl e.hours })
          ++ List.replicate (hdrK.count - 1) zeroEmployee) :=
  (claim5_amended_truncated_read_zero_fills 3 hdrK fileK 1
    (by decide) (by decide) (by decide)).1

/-- A file holding only the 12 header bytes although its header promises one
record. -/
def fileOnlyHeader : List Nat :=
  headerBytesLE { magic := htonl HEADER_MAGIC, version := htons 1,
                  count := htons 1, filesize := htonl 528 }

/-- Counterexample to C5 as stated: loading a file truncated before its
single promised record does NOT fail with any error — `read_employees`
succeeds and returns one silently zero-filled record. -/
theorem claim5_counterexample_truncation_not_detected :
    read_employees 3 fileOnlyHeader
        { magic := HEADER_MAGIC, version := 1, count := 1, filesize := 528 }
      = some [zeroEmployee] := by
  decide

/-- The save loop's out-of-bounds reads modelled as zero records (no theorem
below depends on this choice where it matters). -/
def gZ : Nat → employee_t := fun _ => zeroEmployee

theorem byteAt_headerBytes_zero (h : db_header_t) (rest : List Nat) :
    byteAt (headerBytesLE h ++ rest) 0 = h.magic % 256 := by
  simp [headerBytesLE, u32le, byteAt]

/-- Claim C8 amended: `output_file` mutates its arguments in place.  The
header is left with every field byte-swapped to network order (its `filesize`
recomputed from the already-swapped count), so a store whose magic is the
valid constant no longer equals its pre-save state; the save loop byte-swaps
the `hours` of the records it visits — all of them whenever `count ≤ 255`
(for larger counts the swapped loop bound `htons(count)` can fall short, see
the counterexample) — and a second save of the resulting state writes
different file bytes than the first. -/
theorem claim8_amended_save_mutates_arguments (g g2 : Nat → employee_t) (fd : Int)
    (hdr : db_header_t) (emps : List employee_t) (file1 : List Nat)
    (hdr1 : db_header_t) (emps1 : List employee_t) (bw : Nat)
    (hfd : 0 ≤ fd) (hmagic : hdr.magic = HEADER_MAGIC)
    (hsave : output_file g fd hdr emps = some (file1, hdr1, emps1, bw)) :
    hdr1 = { magic := htonl hdr.magic, version := htons hdr.version,
             count := htons hdr.count,
             filesize := htonl (12 + 516 * htons hdr.count) }
    ∧ hdr1 ≠ hdr
    ∧ (hdr.count = emps.length → hdr.count ≤ 255 →
        emps1 = emps.map fun e => { e with hours := htonl e.hours })
    ∧ (∀ file2 hdr2 emps2 bw2,
        output_file g2 fd hdr1 emps1 = some (file2, hdr2, emps2, bw2) →
        file2 ≠ file1) := by
  unfold output_file at hsave
  rw [if_neg (by omega)] at hsave
  simp only [Option.some.injEq, Prod.mk.injEq] at hsave
  obtain ⟨hf1, hh1, he1, hb1⟩ := hsave
  refine ⟨hh1.symm, ?_, ?_, ?_⟩
  · rw [← hh1]
    intro heq
    have hm := congrArg db_header_t.magic heq
    simp only at hm
    rw [hmagic] at hm
    exact absurd hm (by decide)
  · intro hcnt hle
    rw [← he1]
    exact mutateHours_eq_map (htons hdr.count) 0 emps
      (by rw [htons_of_le255 hdr.count hle]; omega)
  · intro file2 hdr2 emps2 bw2 hsave2
    unfold output_file at hsave2
    rw [if_neg (by omega)] at hsave2
    simp only [Option.some.injEq, Prod.mk.injEq] at hsave2
    obtain ⟨hf2, _, _, _⟩ := hsave2
    intro heq
    have hb := congrArg (fun l => byteAt l 0) heq
    simp only at hb
    rw [← hf2, ← hf1, byteAt_headerBytes_zero, byteAt_headerBytes_zero] at hb
    simp only at hb
    rw [← hh1] at hb
    simp only at hb
    rw [hmagic] at hb
    exact absurd hb (by decide)

/-- A valid empty store's header. -/
def hdrSaveW : db_header_t :=
  { magic := HEADER_MAGIC, version := 1, count := 0, filesize := 12 }

/-- The header `hdrSaveW` is left with after a save: all fields in network
byte order. -/
def hdrSavedW : db_header_t :=
  { magic := htonl HEADER_MAGIC, version := htons 1, count := 0, filesize := htonl 12 }

/-- Witness for the amended C8: saving the empty store with the valid magic
leaves the in-memory header different from its pre-save state. -/
theorem claim8_amended_witness : hdrSavedW ≠ hdrSaveW :=
  (claim8_amended_save_mutates_arguments gZ gZ 3 hdrSaveW [] (headerBytesLE hdrSavedW)
    hdrSavedW [] 12 (by decide) rfl (by decide)).2.1

/-- A valid store of 256 copies of `empA`. -/
def hdr256 : db_header_t :=
  { magic := HEADER_MAGIC, version := 1, count := 256, filesize := 12 + 516 * 256 }

/-- The 256-record list of the `hdr256` store. -/
def emps256 : List employee_t := List.replicate 256 empA

/-- The employee list a save leaves in memory. -/
def savedEmployees : Option (List Nat × db_header_t × List employee_t × Nat) →
    List employee_t
  | some (_, _, es, _) => es
  | none => []

/-- Counterexample to C8 as stated: on a store of 256 records the save loop
runs only `htons(256) = 1` times, so record 1's `numeric_field` is NOT left
in network byte order — it still holds its host-order value after the call. -/
theorem claim8_counterexample_record_left_in_host_order :
    (savedEmployees (output_file gZ 3 hdr256 emps256)).getD 1 zeroEmployee = empA
    ∧ htonl empA.hours ≠ empA.hours := by
  exact ⟨rfl, by decide⟩

/-- The header the save of the `hdr256` store leaves behind: its count field
holds `htons 256 = 1`. -/
def hdrM1 : db_header_t :=
  { magic := htonl HEADER_MAGIC, version := htons 1, count := 1, filesize := htonl 528 }

/-- The 528-byte file that saving the 256-record store actually produces:
the swapped header followed by a single record. -/
def fileC1 : List Nat :=
  headerBytesLE hdrM1 ++ encodeEmployee { empA with hours := htonl empA.hours }

/-- The header loading `fileC1` back yields: it validates (the declared size
matches the 528 bytes present) and still promises 256 records. -/
def hdrL1 : db_header_t :=
  { magic := HEADER_MAGIC, version := 1, count := 256, filesize := 528 }

/-- Claim C1 fails on the code: saving the valid 256-record store `emps256`
writes only `htons(256) = 1` record (the loop bound and the filesize formula
use the count AFTER its in-place byte swap), yet the resulting file passes
header validation, and reloading returns the first record followed by 255
zero-filled records — not the list that was saved. -/
theorem claim1_save_then_reload_loses_records :
    output_file gZ 3 hdr256 emps256 = some (fileC1, hdrM1, mutateHours 1 0 emps256, 528)
    ∧ retrieve_and_validate_db_header 3 fileC1 none = (.ok (), some hdrL1)
    ∧ read_employees 3 fileC1 hdrL1 = some (empA :: List.replicate 255 zeroEmployee)
    ∧ empA :: List.replicate 255 zeroEmployee ≠ emps256 := by
  refine ⟨?_, ?_, ?_, ?_⟩
  · decide
  · decide
  · rw [read_employees_of_short 3 hdrL1 fileC1 1 (by decide) (by decide) (by decide)]
    decide
  · decide
